import Mathlib

/-!
Shallow embedding of the authentication and authorization core of the
MyHealthGuide repository (crate MyHealthGuide-domain, module auth), covering:

* the session-token codec (auth/token.rs),
* the revocation registry (auth/token_blacklist.rs),
* the federated-login session store and callback flow (auth/oidc.rs),
* the identity-provider key cache and federated claim inspection (auth/auth0.rs),
* the authentication and authorization middleware (auth/mod.rs, auth/authorize.rs).

Timestamps (SystemTime, chrono timestamps) are modelled as integers counting
seconds; durations are integer second counts.  HashMaps are modelled as
association lists whose keys are pairwise distinct.  Network and JWT-library
effects are passed in explicitly as oracle values.  The cryptographic MAC used
by the JWT library is modelled as an injective tag of the secret and the
claims; base64/JSON wire syntax is abstracted into a structured token type
with an explicit malformed case.
-/

set_option maxHeartbeats 1000000

namespace MyHealthGuide

/-- Minimal model of a serde_json::Value, as used for audiences, JWKS
documents and custom claims. -/
inductive Json where
  | null : Json
  | bool (b : Bool) : Json
  | num (n : Int) : Json
  | str (s : String) : Json
  | arr (xs : List Json) : Json
  | obj (fields : List (String × Json)) : Json

/-- Model of Rust str::contains: the pattern occurs as a contiguous
substring, i.e. it is a prefix of some suffix. -/
def strContains (s pat : String) : Bool :=
  s.data.tails.any (fun t => pat.data.isPrefixOf t)

/-- Model of Rust str::starts_with. -/
def strStartsWith (s pat : String) : Bool :=
  pat.data.isPrefixOf s.data

/-- Model of Rust str::ends_with. -/
def strEndsWith (s pat : String) : Bool :=
  pat.data.isSuffixOf s.data

/-- Split a character list at every occurrence of the separator, keeping
empty pieces (the semantics of Rust str::split on a char). -/
def splitChar (sep : Char) : List Char → List (List Char)
  | [] => [[]]
  | c :: rest =>
    match splitChar sep rest with
    | [] => if c = sep then [[], [c]] else [[c]]
    | h :: t => if c = sep then [] :: h :: t else (c :: h) :: t

/-- Model of the Rust scope split: scope_str.split a space yields the
space-delimited pieces, empty pieces included. -/
def strSplitOnSpace (s : String) : List String :=
  (splitChar ' ' s.data).map (fun cs => String.mk cs)

/-- JWT claims carried by self-issued session tokens (struct Claims in
auth/mod.rs). -/
structure Claims where
  sub : String
  iss : String
  iat : Int
  exp : Int
  deriving Repr, DecidableEq

/-- Token kinds (enum TokenType in auth/token.rs). -/
inductive TokenType where
  | Access : TokenType
  | Refresh : TokenType
  deriving Repr, DecidableEq

/-- Security errors (enum SecurityError in auth/token.rs).  Message payloads
are carried as plain strings. -/
inductive SecurityError where
  | TokenValidation (msg : String) : SecurityError
  | TokenExpired : SecurityError
  | TokenNotYetValid : SecurityError
  | InvalidToken : SecurityError
  | ConfigError (msg : String) : SecurityError
  | TokenRevoked : SecurityError
  | Generic (msg : String) : SecurityError
  | InvalidFormat : SecurityError
  | MalformedToken : SecurityError
  | MissingJWK : SecurityError
  | InvalidIssuer : SecurityError
  | InvalidAudience : SecurityError
  deriving Repr, DecidableEq

/-- An encoded JWT on the wire: either structurally invalid, or a claims
payload together with a signature tag. -/
inductive JwtToken where
  | malformed : JwtToken
  | signed (claims : Claims) (sig : String) : JwtToken
  deriving Repr, DecidableEq

/-- Model of the HMAC-SHA256 signature produced by jsonwebtoken::encode with
EncodingKey::from_secret: an injective tag of the secret and the serialized
claims. -/
def macSign (secret : String) (c : Claims) : String :=
  secret ++ "." ++ c.sub ++ "." ++ c.iss ++ "." ++ toString c.iat ++ "." ++ toString c.exp

/-- The jsonwebtoken::errors::ErrorKind outcomes distinguished by
validate_token in auth/token.rs. -/
inductive JwtError where
  | expiredSignature : JwtError
  | invalidToken : JwtError
  | invalidSignature : JwtError
  | invalidIssuer : JwtError
  deriving Repr, DecidableEq

/-- Model of jsonwebtoken::decode with validate_exp set and the issuer set
as in validate_token: signature is checked first, then expiry, then issuer.
The library's 60 second default leeway on the expiry check is abstracted
to an exact comparison. -/
def jwtDecode (secret issuer : String) (now : Int) (t : JwtToken) :
    Except JwtError Claims :=
  match t with
  | .malformed => .error .invalidToken
  | .signed c sig =>
    if sig ≠ macSign secret c then .error .invalidSignature
    else if c.exp < now then .error .expiredSignature
    else if c.iss ≠ issuer then .error .invalidIssuer
    else .ok c

/-- Environment configuration consumed by auth/token.rs: JWT_SECRET,
JWT_ISSUER, and the per-kind expiration settings (defaults 15 minutes and
7 days). -/
structure TokenEnv where
  jwtSecret : Option String
  jwtIssuer : Option String
  accessExpirationMinutes : Int := 15
  refreshExpirationDays : Int := 7
  deriving Repr, DecidableEq

/-- TokenType::expiration from auth/token.rs, in seconds. -/
def TokenType.expirationSecs (env : TokenEnv) : TokenType → Int
  | .Access => env.accessExpirationMinutes * 60
  | .Refresh => env.refreshExpirationDays * 86400

/-- One revocation-registry record: natural expiration of the entry and the
time of revocation (the HashMap value in auth/token_blacklist.rs). -/
structure BlacklistEntry where
  expiration : Int
  revokedAt : Int
  deriving Repr, DecidableEq

/-- struct TokenBlacklist from auth/token_blacklist.rs: a map from token
identifier (subject id) to its entry, plus the maximum size (default
10000). -/
structure TokenBlacklist where
  revoked_tokens : List (String × BlacklistEntry)
  max_size : Nat
  deriving Repr, DecidableEq

namespace TokenBlacklist

/-- TokenBlacklist::new with the default size limit. -/
def new : TokenBlacklist :=
  { revoked_tokens := [], max_size := 10000 }

/-- TokenBlacklist::with_max_size. -/
def with_max_size (max : Nat) : TokenBlacklist :=
  { revoked_tokens := [], max_size := max }

/-- TokenBlacklist::is_revoked: key lookup in the map. -/
def is_revoked (bl : TokenBlacklist) (token_id : String) : Bool :=
  bl.revoked_tokens.any (fun p => p.1 == token_id)

/-- TokenBlacklist::size. -/
def size (bl : TokenBlacklist) : Nat :=
  bl.revoked_tokens.length

/-- cleanup_expired_tokens_internal: retain exactly the entries whose natural
expiration is still in the future (now.duration_since(expiration).is_err()
holds iff expiration is strictly after now). -/
def cleanup_expired_tokens_internal (now : Int) (tokens : List (String × BlacklistEntry)) :
    List (String × BlacklistEntry) :=
  tokens.filter (fun p => now < p.2.expiration)

/-- TokenBlacklist::cleanup_expired_tokens, returning the new registry and
the number of removed entries. -/
def cleanup_expired_tokens (bl : TokenBlacklist) (now : Int) : TokenBlacklist × Nat :=
  let cleaned := cleanup_expired_tokens_internal now bl.revoked_tokens
  ({ bl with revoked_tokens := cleaned }, bl.revoked_tokens.length - cleaned.length)

/-- TokenBlacklist::remove_oldest_entries: sort the entries by revocation
time (oldest first, stable) and remove the keys of the first count of
them. -/
def remove_oldest_entries (tokens : List (String × BlacklistEntry)) (count : Nat) :
    List (String × BlacklistEntry) :=
  let sorted := tokens.mergeSort (fun a b => a.2.revokedAt ≤ b.2.revokedAt)
  let to_remove := (sorted.take count).map (fun p => p.1)
  tokens.filter (fun p => !(to_remove.contains p.1))

/-- HashMap::insert on the association-list model: replaces any existing
binding of the key. -/
def insertEntry (tokens : List (String × BlacklistEntry)) (k : String) (v : BlacklistEntry) :
    List (String × BlacklistEntry) :=
  tokens.filter (fun p => p.1 ≠ k) ++ [(k, v)]

/-- TokenBlacklist::revoke_token: when at capacity, first purge expired
entries; if still at capacity, evict the oldest max_size / 2 entries by
revocation time; then insert the new entry with the current time as
revocation time. -/
def revoke_token (bl : TokenBlacklist) (token_id : String) (expiration : Int) (now : Int) :
    TokenBlacklist :=
  let tokens := bl.revoked_tokens
  let tokens :=
    if bl.max_size ≤ tokens.length then
      let cleaned := cleanup_expired_tokens_internal now tokens
      if bl.max_size ≤ cleaned.length then
        remove_oldest_entries cleaned (bl.max_size / 2)
      else cleaned
    else tokens
  { bl with
    revoked_tokens := insertEntry tokens token_id { expiration := expiration, revokedAt := now } }

end TokenBlacklist

namespace Token

/-- generate_token from auth/token.rs: requires JWT_SECRET, reads JWT_ISSUER
with default, sets issued-at to now and expiry to now plus the kind's
duration, and signs the claims with the secret. -/
def generate_token (env : TokenEnv) (now : Int) (user_id : String) (token_type : TokenType) :
    Except SecurityError JwtToken :=
  match env.jwtSecret with
  | none => .error (.ConfigError "JWT_SECRET environment variable not found")
  | some secret =>
    let issuer := env.jwtIssuer.getD "MyHealthGuide-api"
    let expiration := now + token_type.expirationSecs env
    let claims : Claims := { sub := user_id, iss := issuer, iat := now, exp := expiration }
    .ok (.signed claims (macSign secret claims))

/-- validate_token from auth/token.rs: requires JWT_SECRET, decodes with the
configured issuer, maps the library error kinds onto SecurityError
(ExpiredSignature to TokenExpired, InvalidToken to InvalidToken,
InvalidSignature and every other kind to TokenValidation), and finally
consults the revocation registry for the claims' subject. -/
def validate_token (env : TokenEnv) (bl : TokenBlacklist) (now : Int) (token : JwtToken) :
    Except SecurityError Claims :=
  match env.jwtSecret with
  | none => .error (.ConfigError "JWT_SECRET environment variable not found")
  | some secret =>
    let issuer := env.jwtIssuer.getD "MyHealthGuide-api"
    match jwtDecode secret issuer now token with
    | .error .expiredSignature => .error .TokenExpired
    | .error .invalidToken => .error .InvalidToken
    | .error .invalidSignature => .error (.TokenValidation "Invalid signature")
    | .error .invalidIssuer => .error (.TokenValidation "InvalidIssuer")
    | .ok c =>
      if TokenBlacklist.is_revoked bl c.sub then .error .TokenRevoked
      else .ok c

/-- revoke_token from auth/token.rs: inserts the subject into the global
blacklist with a fixed natural expiration of 24 hours (86400 seconds) from
now. -/
def revoke_token (bl : TokenBlacklist) (now : Int) (user_id : String) : TokenBlacklist :=
  TokenBlacklist.revoke_token bl user_id (now + 86400) now

end Token

deriving instance DecidableEq for Except

/-- User information extracted from authenticated requests (struct UserInfo
in auth/mod.rs). -/
structure UserInfo where
  user_id : String
  roles : List String
  email : Option String
  name : Option String
  picture : Option String
  auth_source : String
  deriving Repr, DecidableEq

/-- OIDC errors (enum OidcError in auth/oidc.rs). -/
inductive OidcError where
  | DiscoveryError (msg : String) : OidcError
  | ClientInitError (msg : String) : OidcError
  | AuthUrlError (msg : String) : OidcError
  | TokenExchangeError (msg : String) : OidcError
  | TokenVerificationError (msg : String) : OidcError
  | SessionNotFound : OidcError
  | CsrfMismatch : OidcError
  | UserInfoError (msg : String) : OidcError
  | Generic (msg : String) : OidcError
  deriving Repr, DecidableEq

/-- One federated-login session record (struct OidcSession in auth/oidc.rs). -/
structure OidcSession where
  id : String
  csrf_token : String
  pkce_verifier : String
  created_at : Int
  nonce : String
  deriving Repr, DecidableEq

/-- struct InMemorySessionRepository from auth/oidc.rs: a map from CSRF state
token to session record, modelled as an association list with pairwise
distinct keys. -/
structure InMemorySessionRepository where
  sessions : List (String × OidcSession)
  deriving Repr, DecidableEq

namespace InMemorySessionRepository

/-- InMemorySessionRepository::store_session: HashMap::insert keyed by the
session's csrf_token. -/
def store_session (repo : InMemorySessionRepository) (session : OidcSession) :
    InMemorySessionRepository :=
  { sessions :=
      repo.sessions.filter (fun p => p.1 ≠ session.csrf_token) ++
        [(session.csrf_token, session)] }

/-- InMemorySessionRepository::get_session: a non-destructive lookup that
clones the found record; fails with SessionNotFound when the key is
absent. -/
def get_session (repo : InMemorySessionRepository) (csrf_token : String) :
    Except OidcError OidcSession :=
  match repo.sessions.find? (fun p => p.1 == csrf_token) with
  | some p => .ok p.2
  | none => .error .SessionNotFound

/-- InMemorySessionRepository::delete_session: HashMap::remove by key. -/
def delete_session (repo : InMemorySessionRepository) (csrf_token : String) :
    InMemorySessionRepository :=
  { sessions := repo.sessions.filter (fun p => p.1 ≠ csrf_token) }

/-- InMemorySessionRepository::cleanup_expired_sessions: removes every record
whose age exceeds the timeout, treating a clock error (created_at after now)
as expired. -/
def cleanup_expired_sessions (repo : InMemorySessionRepository) (timeout : Int) (now : Int) :
    InMemorySessionRepository :=
  { sessions :=
      repo.sessions.filter
        (fun p => p.2.created_at ≤ now ∧ now - p.2.created_at ≤ timeout) }

end InMemorySessionRepository

/-- struct OidcConfig from auth/oidc.rs (session_timeout default 600
seconds). -/
structure OidcConfig where
  client_id : String
  client_secret : String
  issuer_url : String
  redirect_url : String
  session_timeout : Int := 600
  deriving Repr, DecidableEq

/-- The ID-token claims inspected by handle_callback after the library
verification step. -/
structure IdTokenClaims where
  sub : String
  azp : Option String
  exp : Int
  email : Option String
  name : Option String
  picture : Option String
  deriving Repr, DecidableEq

/-- The provider token-endpoint response as consumed by handle_callback:
an optional ID token whose library verification (signature, issuer,
audience, nonce) yields either claims or an error message, plus the access
token used for the userinfo call. -/
structure TokenResponse where
  id_token : Option (Except String IdTokenClaims)
  access_token : String
  deriving Repr, DecidableEq

/-- Extended user profile from the provider userinfo endpoint (struct
UserProfile in auth/oidc.rs, restricted to the fields that
profile_to_user_info reads). -/
structure UserProfile where
  sub : String
  email : Option String
  name : Option String
  given_name : Option String
  family_name : Option String
  preferred_username : Option String
  picture : Option String
  deriving Repr, DecidableEq

/-- Network effects of one callback handling, supplied as oracles: the
outcome of the authorization-code exchange and the outcome of the
userinfo fetch. -/
structure CallbackWorld where
  exchange_code : Except String TokenResponse
  fetch_user_profile : Except String UserProfile
  deriving Repr, DecidableEq

namespace Oidc

/-- Display-name fallback of profile_to_user_info in auth/oidc.rs: name,
else given plus family, else given, else family, else
preferred_username. -/
def resolve_display_name (profile : UserProfile) : Option String :=
  match profile.name with
  | some n => some n
  | none =>
    match profile.given_name, profile.family_name with
    | some g, some f => some (g ++ " " ++ f)
    | some g, none => some g
    | none, some f => some f
    | none, none => profile.preferred_username

/-- OidcClient::profile_to_user_info: builds the federated identity with the
default user role. -/
def profile_to_user_info (profile : UserProfile) : UserInfo :=
  { user_id := profile.sub
    roles := ["user"]
    email := profile.email
    name := resolve_display_name profile
    picture := profile.picture
    auth_source := "oidc" }

/-- OidcClient::handle_callback from auth/oidc.rs: looks the session up by
the state parameter, rejects it when older than the session timeout (clock
errors surface as UserInfoError), exchanges the code, extracts and verifies
the ID token, checks the authorized party against the client id and the
expiry against now, deletes the session only after all those checks
succeeded, and finally builds the identity from the userinfo profile when
available, else from the ID-token claims.  Returns the outcome together
with the session store left behind. -/
def handle_callback (config : OidcConfig) (repo : InMemorySessionRepository)
    (world : CallbackWorld) (now : Int) (_code state : String) :
    Except OidcError UserInfo × InMemorySessionRepository :=
  match repo.get_session state with
  | .error e => (.error e, repo)
  | .ok session =>
    if now < session.created_at then
      (.error (.UserInfoError "System clock error"), repo)
    else if config.session_timeout < now - session.created_at then
      (.error .SessionNotFound, repo)
    else
      match world.exchange_code with
      | .error e => (.error (.TokenExchangeError e), repo)
      | .ok token_response =>
        match token_response.id_token with
        | none =>
          (.error (.TokenVerificationError "No ID token was returned from the provider"), repo)
        | some verification =>
          match verification with
          | .error e => (.error (.TokenVerificationError e), repo)
          | .ok claims =>
            if (match claims.azp with
                | some azp => azp != config.client_id
                | none => false) then
              (.error (.TokenVerificationError "Authorized party in token"), repo)
            else if claims.exp < now then
              (.error (.TokenVerificationError "ID token has expired"), repo)
            else
              let repo2 := repo.delete_session state
              match world.fetch_user_profile with
              | .ok profile => (.ok (profile_to_user_info profile), repo2)
              | .error _ =>
                (.ok { user_id := claims.sub
                       roles := ["user"]
                       email := claims.email
                       name := claims.name
                       picture := claims.picture
                       auth_source := "oidc" }, repo2)

end Oidc

/-- A JWKS document, modelled as the fields of its JSON object (the source
type is HashMap from String to serde_json::Value). -/
abbrev JWKSet := List (String × Json)

/-- struct JwksCache from auth/auth0.rs: JWKS keyed by issuer together with
the fetch timestamp, plus the cache TTL (default 24 hours). -/
structure JwksCache where
  keys : List (String × (JWKSet × Int))
  cache_expiration : Int := 86400

/-- Outcome of the HTTP JWKS fetch, supplied as an oracle. -/
inductive FetchOutcome where
  | success (jwks : JWKSet) : FetchOutcome
  | failure (msg : String) : FetchOutcome

namespace Auth0

/-- JwksCache::get_jwks from auth/auth0.rs: serve the cached entry while its
age is below the TTL; otherwise perform the network fetch, store the fresh
document with the current time, and return it.  A fetch failure propagates
as an error even when a stale cached entry exists; a clock error (cached
timestamp after now) also propagates. -/
def get_jwks (cache : JwksCache) (now : Int) (issuer : String) (fetch : FetchOutcome) :
    Except String (JWKSet × JwksCache) :=
  let fetch_path : Except String (JWKSet × JwksCache) :=
    match fetch with
    | .failure msg => .error msg
    | .success jwks =>
      .ok (jwks,
        { cache with
          keys := cache.keys.filter (fun p => p.1 ≠ issuer) ++ [(issuer, (jwks, now))] })
  match cache.keys.find? (fun p => p.1 == issuer) with
  | some p =>
    if now < p.2.2 then .error "SystemTimeError"
    else if now - p.2.2 < cache.cache_expiration then .ok (p.2.1, cache)
    else fetch_path
  | none => fetch_path

/-- Federated (Auth0) token claims (struct Auth0Claims in auth/auth0.rs):
standard registered claims plus the optional role-bearing shapes and the
flattened custom claims. -/
structure Auth0Claims where
  sub : String
  iss : String
  aud : Json
  iat : Int
  exp : Int
  azp : Option String
  scope : Option String
  email : Option String
  email_verified : Option Bool
  name : Option String
  nickname : Option String
  picture : Option String
  updated_at : Option String
  roles : Option (List String)
  permissions : Option (List String)
  custom_claims : List (String × Json)

/-- The string items of a JSON array value, as collected by the namespaced
roles loop in extract_roles_from_claims (non-array values and non-string
items contribute nothing). -/
def jsonStringItems : Json → List String
  | .arr items =>
    items.filterMap (fun item =>
      match item with
      | .str s => some s
      | _ => none)
  | _ => []

/-- extract_roles_from_claims from auth/auth0.rs: collect in order the
direct roles array, the array items of every custom claim whose key ends
with "/roles" or contains "roles", the permissions array, and the
space-delimited scope entries that contain "role:" or start with "role_";
finally append the default user role when absent. -/
def extract_roles_from_claims (claims : Auth0Claims) : List String :=
  let roles : List String := []
  let roles :=
    match claims.roles with
    | some direct_roles => roles ++ direct_roles
    | none => roles
  let roles := roles ++
    claims.custom_claims.flatMap (fun kv =>
      if strEndsWith kv.1 "/roles" || strContains kv.1 "roles" then jsonStringItems kv.2
      else [])
  let roles :=
    match claims.permissions with
    | some permissions => roles ++ permissions
    | none => roles
  let roles := roles ++
    (match claims.scope with
     | some scope_str =>
       (strSplitOnSpace scope_str).filter
         (fun scope => strContains scope "role:" || strStartsWith scope "role_")
     | none => [])
  if !(roles.contains "user") then roles ++ ["user"] else roles

end Auth0

/-- A produced HTTP response, reduced to the observations the claims are
about: the status code and the required-role list disclosed in a Forbidden
body. -/
structure HttpResponse where
  status : Nat
  required_roles : Option (List String) := none
  deriving Repr, DecidableEq

/-- The Authorization header of an incoming request, abstracted past header
syntax: absent, not valid UTF-8 (to_str fails), present without the Bearer
prefix, or a Bearer credential carrying a token. -/
inductive AuthHeader where
  | missing : AuthHeader
  | notUtf8 : AuthHeader
  | notBearer (s : String) : AuthHeader
  | bearer (token : JwtToken) : AuthHeader
  deriving Repr, DecidableEq

/-- Outcome of one run of the authentication middleware: the response, the
identity attached to the request (when it proceeded), and whether the
federated (Auth0) validation path was invoked. -/
structure AuthMiddlewareOutcome where
  response : HttpResponse
  identity : Option UserInfo
  federated_attempted : Bool
  deriving Repr, DecidableEq

namespace Middleware

/-- The empty-body 401 response built by the rejection branches of
auth_middleware. -/
def unauthorized : HttpResponse := { status := 401 }

/-- auth_middleware from auth/mod.rs: development bypass first (debug builds
with BYPASS_AUTH set), then header extraction, then local validate_token;
on success attach a local identity with the default user role and run the
next handler; on TokenExpired or TokenRevoked reject with 401 immediately;
on every other local error fall back to validate_auth0_token (supplied as
an oracle result), proceeding on its success and rejecting with 401 on its
failure. -/
def auth_middleware (debug_build bypass_auth : Bool)
    (env : TokenEnv) (bl : TokenBlacklist) (now : Int)
    (hdr : AuthHeader)
    (auth0_result : Except SecurityError UserInfo)
    (next_response : HttpResponse) : AuthMiddlewareOutcome :=
  if debug_build ∧ bypass_auth then
    { response := next_response, identity := none, federated_attempted := false }
  else
    match hdr with
    | .missing => { response := unauthorized, identity := none, federated_attempted := false }
    | .notUtf8 => { response := unauthorized, identity := none, federated_attempted := false }
    | .notBearer _ =>
      { response := unauthorized, identity := none, federated_attempted := false }
    | .bearer token =>
      match Token.validate_token env bl now token with
      | .ok claims =>
        { response := next_response
          identity := some
            { user_id := claims.sub, roles := ["user"], email := none, name := none,
              picture := none, auth_source := "jwt" }
          federated_attempted := false }
      | .error .TokenExpired =>
        { response := unauthorized, identity := none, federated_attempted := false }
      | .error .TokenRevoked =>
        { response := unauthorized, identity := none, federated_attempted := false }
      | .error _ =>
        match auth0_result with
        | .ok user_info =>
          { response := next_response, identity := some user_info, federated_attempted := true }
        | .error _ =>
          { response := unauthorized, identity := none, federated_attempted := true }

/-- require_roles from auth/authorize.rs: with an attached identity, run the
next handler when any required role is among the identity's roles, else
respond 403 Forbidden disclosing the required roles; with no identity
attached, respond 500. -/
def require_roles (user_info : Option UserInfo) (required_roles : List String)
    (next_response : HttpResponse) : HttpResponse :=
  match user_info with
  | some user =>
    if required_roles.any (fun role => user.roles.contains role) then next_response
    else { status := 403, required_roles := some required_roles }
  | none => { status := 500, required_roles := none }

end Middleware

/-! ## Concrete fixtures used by counterexamples and witnesses -/

/-- A token environment with the secret configured. -/
def envK : TokenEnv := { jwtSecret := some "k", jwtIssuer := some "i" }

/-- An empty revocation registry with the default capacity. -/
def blEmpty : TokenBlacklist := { revoked_tokens := [], max_size := 10000 }

/-- Claims of a Refresh token for subject s minted at time 0 (7-day expiry). -/
def claimsRefreshS : Claims := { sub := "s", iss := "i", iat := 0, exp := 604800 }

/-- The registry after revoking subject s at time 0 (entry expires at 86400). -/
def blRevokedS : TokenBlacklist := Token.revoke_token blEmpty 0 "s"

/-- The registry after the timer sweep runs at time 86400. -/
def blSweptS : TokenBlacklist := (blRevokedS.cleanup_expired_tokens 86400).1

/-- A stored federated-login session created at time 0 under state token st. -/
def sessSt : OidcSession :=
  { id := "sid", csrf_token := "st", pkce_verifier := "pk", created_at := 0, nonce := "n" }

/-- A session store holding exactly sessSt. -/
def repoSt : InMemorySessionRepository := { sessions := [("st", sessSt)] }

/-- A concrete OIDC configuration with the default 600-second timeout. -/
def cfgC : OidcConfig :=
  { client_id := "c", client_secret := "cs", issuer_url := "u", redirect_url := "r" }

/-- A callback world whose code exchange fails at the network. -/
def failWorld : CallbackWorld :=
  { exchange_code := .error "net", fetch_user_profile := .error "net" }

/-- Verified ID-token claims for subject u1, expiring far in the future. -/
def idClaimsU1 : IdTokenClaims :=
  { sub := "u1", azp := none, exp := 99999, email := none, name := none,
    picture := none }

/-- A token-endpoint response carrying a verifiable ID token for u1. -/
def trOk : TokenResponse :=
  { id_token := some (.ok idClaimsU1), access_token := "at" }

/-- A callback world whose code exchange and ID-token verification succeed
(the userinfo fetch fails, so the identity comes from the ID-token claims). -/
def okWorld : CallbackWorld :=
  { exchange_code := .ok trOk, fetch_user_profile := .error "net" }

/-- A JWKS document fixture. -/
def jwksK : JWKSet := [("keys", .arr [])]

/-- A key cache holding one entry for issuer iss fetched at time 0, with the
default 24-hour TTL. -/
def cacheIss : JwksCache := { keys := [("iss", (jwksK, 0))] }

/-- An expired self-issued token for subject s (expiry before issue). -/
def tokExpiredS : JwtToken :=
  .signed { sub := "s", iss := "i", iat := 0, exp := -1 }
    (macSign "k" { sub := "s", iss := "i", iat := 0, exp := -1 })

/-! ## C1: federated-login session consumption and deletion -/

/-- Deleting a session removes its key, so a later lookup of the same state
fails with SessionNotFound. -/
theorem get_session_after_delete (repo : InMemorySessionRepository) (state : String) :
    (repo.delete_session state).get_session state = .error .SessionNotFound := by
  unfold InMemorySessionRepository.get_session InMemorySessionRepository.delete_session
  have hnone : (repo.sessions.filter (fun p => p.1 ≠ state)).find?
      (fun p => p.1 == state) = none := by
    rw [List.find?_eq_none]
    intro p hp
    have h2 := List.of_mem_filter hp
    simp only [decide_eq_true_eq] at h2
    simpa using h2
  rw [hnone]

/-- C1 counterexample: with the fixture store holding one session under
state st, a callback whose code exchange fails leaves the store unchanged,
the same state still looks up the session, and a replayed callback with the
same state then succeeds, contradicting lookup-time deletion and
impossibility of replay. -/
theorem failed_exchange_leaves_session_replayable :
    (Oidc.handle_callback cfgC repoSt failWorld 1 "cd" "st").1 =
      .error (.TokenExchangeError "net") ∧
    (Oidc.handle_callback cfgC repoSt failWorld 1 "cd" "st").2 = repoSt ∧
    (Oidc.handle_callback cfgC repoSt failWorld 1 "cd" "st").2.get_session "st" =
      .ok sessSt ∧
    (Oidc.handle_callback cfgC
        (Oidc.handle_callback cfgC repoSt failWorld 1 "cd" "st").2
        okWorld 2 "cd" "st").1 =
      .ok { user_id := "u1", roles := ["user"], email := none, name := none,
            picture := none, auth_source := "oidc" } :=
  ⟨rfl, rfl, rfl, rfl⟩

/-- C1 amended: the session record is deleted only after the code exchange
and ID-token verification succeed.  After a fully successful callback the
store equals the deletion of the state key and a second consume of the same
state fails with SessionNotFound; a callback whose exchange fails leaves
the store unchanged, so the session stays consumable. -/
theorem session_deleted_only_after_successful_verification
    (config : OidcConfig) (repo : InMemorySessionRepository) (world : CallbackWorld)
    (now : Int) (code state : String) (session : OidcSession)
    (tr : TokenResponse) (claims : IdTokenClaims)
    (hfind : repo.get_session state = .ok session)
    (hclock : session.created_at ≤ now)
    (hfresh : now - session.created_at ≤ config.session_timeout)
    (hexch : world.exchange_code = .ok tr)
    (hid : tr.id_token = some (.ok claims))
    (hazp : claims.azp = none ∨ claims.azp = some config.client_id)
    (hexp : now ≤ claims.exp) :
    ((Oidc.handle_callback config repo world now code state).2 =
        repo.delete_session state ∧
      (Oidc.handle_callback config repo world now code state).2.get_session state =
        .error .SessionNotFound ∧
      ∃ u, (Oidc.handle_callback config repo world now code state).1 = .ok u) ∧
    (∀ (world2 : CallbackWorld) (msg : String), world2.exchange_code = .error msg →
      (Oidc.handle_callback config repo world2 now code state).2 = repo) := by
  have hazpb : (match claims.azp with
      | some azp => azp != config.client_id
      | none => false) = false := by
    rcases hazp with h | h <;> simp [h]
  constructor
  · have hred : Oidc.handle_callback config repo world now code state =
        (match world.fetch_user_profile with
         | .ok profile => (.ok (Oidc.profile_to_user_info profile),
             repo.delete_session state)
         | .error _ =>
           (.ok { user_id := claims.sub, roles := ["user"], email := claims.email,
                  name := claims.name, picture := claims.picture,
                  auth_source := "oidc" }, repo.delete_session state)) := by
      simp only [Oidc.handle_callback, hfind, if_neg (not_lt.mpr hclock),
        if_neg (not_lt.mpr hfresh), hexch, hid, hazpb, Bool.false_eq_true, if_false,
        if_neg (not_lt.mpr hexp)]
    rcases hw : world.fetch_user_profile with e | profile
    · rw [hred, hw]
      exact ⟨rfl, get_session_after_delete repo state, ⟨_, rfl⟩⟩
    · rw [hred, hw]
      exact ⟨rfl, get_session_after_delete repo state, ⟨_, rfl⟩⟩
  · intro world2 msg hmsg
    simp only [Oidc.handle_callback, hfind, if_neg (not_lt.mpr hclock),
      if_neg (not_lt.mpr hfresh), hmsg]

/-- C1 amended witness: at the fixture store, a successful callback makes
the replay of state st fail, while a failed exchange leaves the store
intact. -/
theorem session_deleted_only_after_successful_verification_witness :
    (Oidc.handle_callback cfgC repoSt okWorld 1 "cd" "st").2.get_session "st" =
      .error .SessionNotFound ∧
    (Oidc.handle_callback cfgC repoSt failWorld 1 "cd" "st").2 = repoSt := by
  have h := session_deleted_only_after_successful_verification cfgC repoSt okWorld
    1 "cd" "st" sessSt trOk idClaimsU1 rfl (by decide) (by decide) rfl rfl
    (Or.inl rfl) (by decide)
  exact ⟨h.1.2.1, h.2 failWorld "net" rfl⟩

/-! ## C2: lifetime of the revocation guarantee -/

/-- The entry inserted by revoke_token is present afterwards. -/
theorem mem_after_revoke (bl : TokenBlacklist) (k : String) (e now : Int) :
    (k, ⟨e, now⟩) ∈ (TokenBlacklist.revoke_token bl k e now).revoked_tokens := by
  simp only [TokenBlacklist.revoke_token, TokenBlacklist.insertEntry]
  exact List.mem_append_right _ (List.mem_singleton.mpr rfl)

/-- A sweep running strictly before an entry's natural expiration keeps the
entry. -/
theorem mem_after_cleanup (now : Int) (tokens : List (String × BlacklistEntry))
    (p : String × BlacklistEntry) (hp : p ∈ tokens) (h : now < p.2.expiration) :
    p ∈ TokenBlacklist.cleanup_expired_tokens_internal now tokens :=
  List.mem_filter.mpr ⟨hp, by simpa using h⟩

/-- C2 counterexample: revoking subject s at time 0 creates an entry whose
natural expiry 86400 does not outlive a Refresh token minted at time 0
(expiry 604800).  After the timer sweep at 86400 removes the entry, the
still-unexpired revoked Refresh token validates successfully at 86401. -/
theorem revoked_refresh_token_validates_after_entry_expiry_sweep :
    Token.generate_token envK 0 "s" .Refresh =
      .ok (.signed claimsRefreshS (macSign "k" claimsRefreshS)) ∧
    Token.validate_token envK blRevokedS 1
        (.signed claimsRefreshS (macSign "k" claimsRefreshS)) =
      .error .TokenRevoked ∧
    Token.validate_token envK blSweptS 86401
        (.signed claimsRefreshS (macSign "k" claimsRefreshS)) = .ok claimsRefreshS ∧
    Token.validate_token envK blSweptS 86401
        (.signed claimsRefreshS (macSign "k" claimsRefreshS)) ≠
      .error .TokenRevoked ∧
    (86401 : Int) < claimsRefreshS.exp :=
  ⟨rfl, rfl, rfl, by decide, by decide⟩

/-- C2 amended: after revoke(s) at time tr, every structurally valid,
unexpired token for s is rejected as TokenRevoked at validation, as long as
every sweep so far ran strictly before the entry's natural expiry tr plus
86400 seconds; since an Access token minted at or before tr expires within
tr plus 86400, the guarantee holds for the whole lifetime of outstanding
Access tokens, while a 7-day Refresh token outlives the entry. -/
theorem revocation_covers_tokens_expiring_within_entry_lifetime
    (env : TokenEnv) (secret : String) (bl : TokenBlacklist) (tr : Int) (s : String)
    (claims : Claims) (sweeps : List Int) (now : Int)
    (hsecret : env.jwtSecret = some secret)
    (hsub : claims.sub = s)
    (hiss : claims.iss = env.jwtIssuer.getD "MyHealthGuide-api")
    (hnotexp : ¬ claims.exp < now)
    (hsweeps : ∀ t ∈ sweeps, t < tr + 86400) :
    Token.validate_token env
      (sweeps.foldl (fun b t => (b.cleanup_expired_tokens t).1)
        (Token.revoke_token bl tr s))
      now (.signed claims (macSign secret claims)) = .error .TokenRevoked := by
  have hfold : ∀ (ts : List Int) (b : TokenBlacklist),
      (s, ⟨tr + 86400, tr⟩) ∈ b.revoked_tokens →
      (∀ t ∈ ts, t < tr + 86400) →
      (s, ⟨tr + 86400, tr⟩) ∈
        (ts.foldl (fun b t => (b.cleanup_expired_tokens t).1) b).revoked_tokens := by
    intro ts
    induction ts with
    | nil => intro b hb _; exact hb
    | cons t rest ih =>
      intro b hb hall
      simp only [List.foldl_cons]
      apply ih
      · exact mem_after_cleanup t _ _ hb (hall t (List.mem_cons_self _ _))
      · intro x hx
        exact hall x (List.mem_cons_of_mem _ hx)
  have hmem := hfold sweeps (Token.revoke_token bl tr s)
    (mem_after_revoke bl s (tr + 86400) tr) hsweeps
  have hrev : TokenBlacklist.is_revoked
      (sweeps.foldl (fun b t => (b.cleanup_expired_tokens t).1)
        (Token.revoke_token bl tr s)) s = true := by
    unfold TokenBlacklist.is_revoked
    exact List.any_eq_true.mpr ⟨(s, ⟨tr + 86400, tr⟩), hmem, by simp⟩
  simp only [Token.validate_token, hsecret, jwtDecode]
  rw [if_neg (by simp), if_neg hnotexp, if_neg (by simp [hiss])]
  simp only [hsub, hrev, if_true, if_pos]

/-- C2 amended witness: with the fixture claims for an Access-length window
(expiry 900 at revocation time 0) and one sweep at time 500, validation at
time 800 reports TokenRevoked. -/
theorem revocation_covers_tokens_expiring_within_entry_lifetime_witness :
    Token.validate_token envK
      ([(500 : Int)].foldl (fun b t => (b.cleanup_expired_tokens t).1)
        (Token.revoke_token blEmpty 0 "s"))
      800 (.signed { sub := "s", iss := "i", iat := 0, exp := 900 }
        (macSign "k" { sub := "s", iss := "i", iat := 0, exp := 900 })) =
      .error .TokenRevoked :=
  revocation_covers_tokens_expiring_within_entry_lifetime envK "k" blEmpty 0 "s"
    { sub := "s", iss := "i", iat := 0, exp := 900 } [500] 800 rfl rfl rfl
    (by decide) (by decide)

/-! ## C3: outcome set of validate_token -/

/-- C3 counterexample: a structurally well-formed token whose signature does
not verify makes validate_token return TokenValidation, which is none of
the four outcomes Ok, InvalidToken, TokenExpired, TokenRevoked named by the
claim. -/
theorem invalid_signature_not_among_claimed_outcomes :
    Token.validate_token envK blEmpty 0 (.signed claimsRefreshS "bad") =
      .error (.TokenValidation "Invalid signature") ∧
    Token.validate_token envK blEmpty 0 (.signed claimsRefreshS "bad") ≠
      .error .InvalidToken ∧
    Token.validate_token envK blEmpty 0 (.signed claimsRefreshS "bad") ≠
      .error .TokenExpired ∧
    Token.validate_token envK blEmpty 0 (.signed claimsRefreshS "bad") ≠
      .error .TokenRevoked := by
  exact ⟨rfl, by decide, by decide, by decide⟩

/-- C3 amended: validate_token is total with outcome set exactly Ok,
ConfigError (secret missing), InvalidToken (structural failure),
TokenValidation (signature or issuer failure), TokenExpired, and
TokenRevoked; no other SecurityError variant is produced. -/
theorem validate_token_outcome_totality (env : TokenEnv) (bl : TokenBlacklist)
    (now : Int) (t : JwtToken) :
    (∃ c, Token.validate_token env bl now t = .ok c) ∨
    (∃ m, Token.validate_token env bl now t = .error (.ConfigError m)) ∨
    Token.validate_token env bl now t = .error .InvalidToken ∨
    (∃ m, Token.validate_token env bl now t = .error (.TokenValidation m)) ∨
    Token.validate_token env bl now t = .error .TokenExpired ∨
    Token.validate_token env bl now t = .error .TokenRevoked := by
  rcases h : env.jwtSecret with _ | secret
  · exact Or.inr (Or.inl ⟨"JWT_SECRET environment variable not found",
      by simp only [Token.validate_token, h]⟩)
  · rcases hdec : jwtDecode secret (env.jwtIssuer.getD "MyHealthGuide-api") now t with e | c
    · cases e
      · exact Or.inr (Or.inr (Or.inr (Or.inr (Or.inl
          (by simp only [Token.validate_token, h, hdec])))))
      · exact Or.inr (Or.inr (Or.inl (by simp only [Token.validate_token, h, hdec])))
      · exact Or.inr (Or.inr (Or.inr (Or.inl ⟨"Invalid signature",
          by simp only [Token.validate_token, h, hdec]⟩)))
      · exact Or.inr (Or.inr (Or.inr (Or.inl ⟨"InvalidIssuer",
          by simp only [Token.validate_token, h, hdec]⟩)))
    · by_cases hrev : TokenBlacklist.is_revoked bl c.sub
      · exact Or.inr (Or.inr (Or.inr (Or.inr (Or.inr
          (by simp only [Token.validate_token, h, hdec, if_pos hrev])))))
      · exact Or.inl ⟨c, by simp only [Token.validate_token, h, hdec, if_neg hrev]⟩

/-! ## C4: key-set cache refresh behavior -/

/-- C4 counterexample: with a cached entry for iss fetched at time 0 and the
default 24-hour TTL, a fetch failure at time 100000 (entry stale) is a hard
error, not the stale cached document. -/
theorem stale_cache_fetch_failure_is_hard_error :
    cacheIss.keys.find? (fun p => p.1 == "iss") = some ("iss", (jwksK, 0)) ∧
    Auth0.get_jwks cacheIss 100000 "iss" (.failure "net") = .error "net" :=
  ⟨rfl, rfl⟩

/-- C4 amended: get_jwks serves the cached entry, without consulting the
fetch outcome, exactly when the entry is younger than the TTL; whenever no
such fresh entry exists (absent key or stale entry), a fetch failure
propagates as a hard error regardless of any stale cached document. -/
theorem get_jwks_fresh_serves_cache_and_fetch_error_propagates
    (cache : JwksCache) (now : Int) (issuer msg : String) :
    (∀ p, cache.keys.find? (fun q => q.1 == issuer) = some p →
      p.2.2 ≤ now → now - p.2.2 < cache.cache_expiration →
      ∀ fetch, Auth0.get_jwks cache now issuer fetch = .ok (p.2.1, cache)) ∧
    ((cache.keys.find? (fun q => q.1 == issuer) = none ∨
      ∃ p, cache.keys.find? (fun q => q.1 == issuer) = some p ∧ p.2.2 ≤ now ∧
        cache.cache_expiration ≤ now - p.2.2) →
      Auth0.get_jwks cache now issuer (.failure msg) = .error msg) := by
  constructor
  · intro p hfind h1 h2 fetch
    simp only [Auth0.get_jwks, hfind, if_neg (not_lt.mpr h1), if_pos h2]
  · rintro (hfind | ⟨p, hfind, h1, h2⟩)
    · simp only [Auth0.get_jwks, hfind]
    · simp only [Auth0.get_jwks, hfind, if_neg (not_lt.mpr h1),
        if_neg (not_lt.mpr h2)]

/-- C4 amended witness: the fixture entry is served while fresh (age 100)
whatever the fetch would do, and a fetch failure for an unknown issuer is an
error. -/
theorem get_jwks_fresh_serves_cache_and_fetch_error_propagates_witness :
    Auth0.get_jwks cacheIss 100 "iss" (.failure "x") = .ok (jwksK, cacheIss) ∧
    Auth0.get_jwks cacheIss 100000 "other" (.failure "x") = .error "x" := by
  constructor
  · exact (get_jwks_fresh_serves_cache_and_fetch_error_propagates cacheIss 100
      "iss" "x").1 ("iss", (jwksK, 0)) rfl (by decide) (by decide) (.failure "x")
  · exact (get_jwks_fresh_serves_cache_and_fetch_error_propagates cacheIss 100000
      "other" "x").2 (Or.inl rfl)

/-! ## C5: no federated fallback for expired or revoked local tokens -/

/-- C5: when the local validation of a Bearer token reports TokenExpired or
TokenRevoked, the middleware answers 401 with the federated path not
attempted, independent of what the federated validation would return; the
federated path is attempted exactly on the remaining local errors. -/
theorem expired_or_revoked_rejected_without_federated_fallback
    (debug_build bypass_auth : Bool) (env : TokenEnv) (bl : TokenBlacklist)
    (now : Int) (token : JwtToken) (auth0_result : Except SecurityError UserInfo)
    (next_response : HttpResponse)
    (hbypass : ¬ (debug_build ∧ bypass_auth)) :
    ((Token.validate_token env bl now token = .error .TokenExpired ∨
      Token.validate_token env bl now token = .error .TokenRevoked) →
      Middleware.auth_middleware debug_build bypass_auth env bl now (.bearer token)
          auth0_result next_response =
        { response := Middleware.unauthorized, identity := none,
          federated_attempted := false }) ∧
    (∀ e, Token.validate_token env bl now token = .error e →
      e ≠ .TokenExpired → e ≠ .TokenRevoked →
      (Middleware.auth_middleware debug_build bypass_auth env bl now (.bearer token)
          auth0_result next_response).federated_attempted = true) := by
  constructor
  · rintro (h | h) <;>
      simp only [Middleware.auth_middleware, if_neg hbypass, h]
  · intro e he h1 h2
    simp only [Middleware.auth_middleware, if_neg hbypass, he]
    cases e <;> simp_all <;> (rcases auth0_result with u | err <;> rfl)

/-- C5 witness: an expired fixture token is rejected with 401 and no
federated attempt, even though the supplied federated result would have
succeeded. -/
theorem expired_or_revoked_rejected_without_federated_fallback_witness :
    Middleware.auth_middleware false false envK blEmpty 0 (.bearer tokExpiredS)
        (.ok { user_id := "u1", roles := ["user"], email := none, name := none,
               picture := none, auth_source := "auth0" })
        { status := 200 } =
      { response := Middleware.unauthorized, identity := none,
        federated_attempted := false } :=
  (expired_or_revoked_rejected_without_federated_fallback false false envK blEmpty
      0 tokExpiredS
      (.ok { user_id := "u1", roles := ["user"], email := none, name := none,
             picture := none, auth_source := "auth0" })
      { status := 200 } (by simp)).1 (Or.inl rfl)

/-! ## C6: bounded revocation registry with expired-first eviction -/

/-- Filtering an association list keeps its keys pairwise distinct. -/
theorem keys_nodup_filter (l : List (String × BlacklistEntry))
    (f : String × BlacklistEntry → Bool)
    (h : (l.map Prod.fst).Nodup) : ((l.filter f).map Prod.fst).Nodup :=
  List.Nodup.sublist (List.Sublist.map Prod.fst (List.filter_sublist l)) h

/-- Inserting a binding after removing its key keeps keys pairwise
distinct. -/
theorem keys_nodup_insertEntry (l : List (String × BlacklistEntry))
    (k : String) (v : BlacklistEntry)
    (h : (l.map Prod.fst).Nodup) :
    ((TokenBlacklist.insertEntry l k v).map Prod.fst).Nodup := by
  unfold TokenBlacklist.insertEntry
  rw [List.map_append]
  refine List.nodup_append.mpr ⟨keys_nodup_filter l _ h, List.nodup_singleton _, ?_⟩
  intro a ha hb
  rcases List.mem_map.mp ha with ⟨p, hp, rfl⟩
  have hne := List.of_mem_filter hp
  simp only [decide_eq_true_eq] at hne
  simp only [List.map_cons, List.map_nil, List.mem_singleton] at hb
  exact hne hb

/-- Filtering out the entries keyed by a duplicate-free list of present
keys removes at least that many entries. -/
theorem filter_out_keys_length (tokens : List (String × BlacklistEntry))
    (T : List String) (_hnd : (tokens.map Prod.fst).Nodup) (hTnd : T.Nodup)
    (hTsubset : ∀ a ∈ T, a ∈ tokens.map Prod.fst) :
    (tokens.filter (fun p => !(T.contains p.1))).length ≤
      tokens.length - T.length := by
  have hsplit := List.length_eq_length_filter_add
    (l := tokens) (fun p : String × BlacklistEntry => T.contains p.1)
  have hbeta : tokens.filter
        (fun x => !((fun p : String × BlacklistEntry => T.contains p.1) x)) =
      tokens.filter (fun p => !(T.contains p.1)) := rfl
  rw [hbeta] at hsplit
  have hfm : (tokens.map Prod.fst).filter (fun k => T.contains k) =
      (tokens.filter (fun p => T.contains p.1)).map Prod.fst := by
    rw [List.filter_map]
    rfl
  have hsub : List.Subperm T
      ((tokens.map Prod.fst).filter (fun k => T.contains k)) := by
    apply List.subperm_of_subset hTnd
    intro a ha
    exact List.mem_filter.mpr ⟨hTsubset a ha, List.elem_eq_true_of_mem ha⟩
  have hlen2 := hsub.length_le
  rw [hfm, List.length_map] at hlen2
  omega

/-- remove_oldest_entries removes at least count entries when the keys are
pairwise distinct and count entries exist. -/
theorem remove_oldest_entries_length (tokens : List (String × BlacklistEntry))
    (count : Nat) (hnd : (tokens.map Prod.fst).Nodup) (hc : count ≤ tokens.length) :
    (TokenBlacklist.remove_oldest_entries tokens count).length ≤
      tokens.length - count := by
  have hdef : TokenBlacklist.remove_oldest_entries tokens count =
      tokens.filter (fun p =>
        !((((tokens.mergeSort (fun a b => a.2.revokedAt ≤ b.2.revokedAt)).take
            count).map (fun p => p.1)).contains p.1)) := rfl
  have hperm : List.Perm
      (tokens.mergeSort (fun a b => a.2.revokedAt ≤ b.2.revokedAt)) tokens :=
    List.mergeSort_perm tokens _
  have hkeysperm : List.Perm
      ((tokens.mergeSort (fun a b => a.2.revokedAt ≤ b.2.revokedAt)).map
        (fun p : String × BlacklistEntry => p.1))
      (tokens.map Prod.fst) := hperm.map _
  have hndsorted :
      ((tokens.mergeSort (fun a b => a.2.revokedAt ≤ b.2.revokedAt)).map
        (fun p : String × BlacklistEntry => p.1)).Nodup :=
    (hkeysperm.nodup_iff).mpr hnd
  have hTsub : List.Sublist
      (((tokens.mergeSort (fun a b => a.2.revokedAt ≤ b.2.revokedAt)).take count).map
        (fun p : String × BlacklistEntry => p.1))
      ((tokens.mergeSort (fun a b => a.2.revokedAt ≤ b.2.revokedAt)).map
        (fun p : String × BlacklistEntry => p.1)) := by
    rw [List.map_take]
    exact List.take_sublist _ _
  have hTnd :
      ((((tokens.mergeSort (fun a b => a.2.revokedAt ≤ b.2.revokedAt)).take count).map
        (fun p : String × BlacklistEntry => p.1))).Nodup :=
    List.Nodup.sublist hTsub hndsorted
  have hTlen :
      ((((tokens.mergeSort (fun a b => a.2.revokedAt ≤ b.2.revokedAt)).take count).map
        (fun p : String × BlacklistEntry => p.1))).length = count := by
    rw [List.length_map, List.length_take]
    have hle := hperm.length_eq
    omega
  have hmain := filter_out_keys_length tokens
    ((((tokens.mergeSort (fun a b => a.2.revokedAt ≤ b.2.revokedAt)).take count).map
      (fun p : String × BlacklistEntry => p.1))) hnd hTnd
    (fun a ha => (hkeysperm.mem_iff).mp (hTsub.subset ha))
  rw [hdef]
  omega

/-- One revoke_token call keeps the registry within capacity and the keys
pairwise distinct, for capacities of at least two. -/
theorem revoke_token_preserves_inv (bl : TokenBlacklist) (k : String)
    (e now : Int) (hmax : 2 ≤ bl.max_size)
    (hlen : bl.revoked_tokens.length ≤ bl.max_size)
    (hnd : (bl.revoked_tokens.map Prod.fst).Nodup) :
    (TokenBlacklist.revoke_token bl k e now).revoked_tokens.length ≤ bl.max_size ∧
    ((TokenBlacklist.revoke_token bl k e now).revoked_tokens.map Prod.fst).Nodup := by
  have hinslen : ∀ l : List (String × BlacklistEntry),
      (TokenBlacklist.insertEntry l k ⟨e, now⟩).length ≤ l.length + 1 := by
    intro l
    unfold TokenBlacklist.insertEntry
    rw [List.length_append]
    have hfl := List.length_filter_le (fun p => decide (p.1 ≠ k)) l
    simpa using Nat.add_le_add_right hfl 1
  have hdef : (TokenBlacklist.revoke_token bl k e now).revoked_tokens =
      TokenBlacklist.insertEntry
        (if bl.max_size ≤ bl.revoked_tokens.length then
          (if bl.max_size ≤
              (TokenBlacklist.cleanup_expired_tokens_internal now
                bl.revoked_tokens).length then
            TokenBlacklist.remove_oldest_entries
              (TokenBlacklist.cleanup_expired_tokens_internal now bl.revoked_tokens)
              (bl.max_size / 2)
          else TokenBlacklist.cleanup_expired_tokens_internal now bl.revoked_tokens)
        else bl.revoked_tokens) k ⟨e, now⟩ := rfl
  rw [hdef]
  by_cases hcap : bl.max_size ≤ bl.revoked_tokens.length
  · rw [if_pos hcap]
    have hclsub : (TokenBlacklist.cleanup_expired_tokens_internal now
        bl.revoked_tokens).length ≤ bl.revoked_tokens.length :=
      List.length_filter_le _ _
    have hclnd : ((TokenBlacklist.cleanup_expired_tokens_internal now
        bl.revoked_tokens).map Prod.fst).Nodup := keys_nodup_filter _ _ hnd
    by_cases hcap2 : bl.max_size ≤
        (TokenBlacklist.cleanup_expired_tokens_internal now bl.revoked_tokens).length
    · rw [if_pos hcap2]
      have hhalf : bl.max_size / 2 ≤
          (TokenBlacklist.cleanup_expired_tokens_internal now
            bl.revoked_tokens).length :=
        le_trans (Nat.div_le_self _ _) hcap2
      have hrem := remove_oldest_entries_length
        (TokenBlacklist.cleanup_expired_tokens_internal now bl.revoked_tokens)
        (bl.max_size / 2) hclnd hhalf
      have hremnd : ((TokenBlacklist.remove_oldest_entries
          (TokenBlacklist.cleanup_expired_tokens_internal now bl.revoked_tokens)
          (bl.max_size / 2)).map Prod.fst).Nodup := keys_nodup_filter _ _ hclnd
      refine ⟨?_, keys_nodup_insertEntry _ _ _ hremnd⟩
      have h5 := hinslen (TokenBlacklist.remove_oldest_entries
        (TokenBlacklist.cleanup_expired_tokens_internal now bl.revoked_tokens)
        (bl.max_size / 2))
      have h6 : 1 ≤ bl.max_size / 2 := by omega
      omega
    · rw [if_neg hcap2]
      refine ⟨?_, keys_nodup_insertEntry _ _ _ hclnd⟩
      have h5 := hinslen
        (TokenBlacklist.cleanup_expired_tokens_internal now bl.revoked_tokens)
      omega
  · rw [if_neg hcap]
    refine ⟨?_, keys_nodup_insertEntry _ _ _ hnd⟩
    have h5 := hinslen bl.revoked_tokens
    omega

/-- A sequence of revocations applied to a fresh registry of the given
capacity (the insertion order of TokenBlacklist::revoke_token: token id,
natural expiration, current time). -/
def applyRevokes (max : Nat) (ops : List (String × Int × Int)) : TokenBlacklist :=
  ops.foldl (fun bl op => TokenBlacklist.revoke_token bl op.1 op.2.1 op.2.2)
    (TokenBlacklist.with_max_size max)

/-- C6: for capacities of at least two (the default is 10000), every
sequence of revocations leaves the registry with at most max entries; and
in an at-capacity insertion every previously present entry whose natural
expiration has passed is removed, so only the newly inserted key can be
expired afterwards: expired entries are purged before any unexpired entry
is considered for eviction. -/
theorem blacklist_bounded_and_expired_purged_first (max : Nat) (hmax : 2 ≤ max) :
    (∀ ops : List (String × Int × Int),
      (applyRevokes max ops).revoked_tokens.length ≤ max) ∧
    (∀ (bl : TokenBlacklist) (k : String) (e now : Int),
      bl.max_size ≤ bl.revoked_tokens.length →
      ∀ p ∈ (TokenBlacklist.revoke_token bl k e now).revoked_tokens,
        p.2.expiration ≤ now → p.1 = k) := by
  constructor
  · intro ops
    suffices h : ∀ (ops : List (String × Int × Int)) (bl : TokenBlacklist),
        bl.max_size = max →
        bl.revoked_tokens.length ≤ max →
        (bl.revoked_tokens.map Prod.fst).Nodup →
        (ops.foldl (fun bl op => TokenBlacklist.revoke_token bl op.1 op.2.1 op.2.2)
          bl).revoked_tokens.length ≤ max by
      exact h ops (TokenBlacklist.with_max_size max) rfl (by simp [TokenBlacklist.with_max_size])
        (by simp [TokenBlacklist.with_max_size])
    intro ops
    induction ops with
    | nil => intro bl _ hlen _; exact hlen
    | cons op rest ih =>
      intro bl hblmax hlen hnd
      simp only [List.foldl_cons]
      have hmaxeq : (TokenBlacklist.revoke_token bl op.1 op.2.1 op.2.2).max_size =
          bl.max_size := rfl
      obtain ⟨hs1, hs2⟩ := revoke_token_preserves_inv bl op.1 op.2.1 op.2.2
        (by omega) (by omega) hnd
      exact ih _ (by omega) (by omega) hs2
  · intro bl k e now hcap p hp hexp
    have hdef : (TokenBlacklist.revoke_token bl k e now).revoked_tokens =
        TokenBlacklist.insertEntry
          (if bl.max_size ≤ bl.revoked_tokens.length then
            (if bl.max_size ≤
                (TokenBlacklist.cleanup_expired_tokens_internal now
                  bl.revoked_tokens).length then
              TokenBlacklist.remove_oldest_entries
                (TokenBlacklist.cleanup_expired_tokens_internal now bl.revoked_tokens)
                (bl.max_size / 2)
            else TokenBlacklist.cleanup_expired_tokens_internal now bl.revoked_tokens)
          else bl.revoked_tokens) k ⟨e, now⟩ := rfl
    rw [hdef, if_pos hcap] at hp
    unfold TokenBlacklist.insertEntry at hp
    rcases List.mem_append.mp hp with hp1 | hp2
    · have hp' := List.mem_of_mem_filter hp1
      have hpc : p ∈ TokenBlacklist.cleanup_expired_tokens_internal now
          bl.revoked_tokens := by
        by_cases h2 : bl.max_size ≤
            (TokenBlacklist.cleanup_expired_tokens_internal now bl.revoked_tokens).length
        · rw [if_pos h2] at hp'
          unfold TokenBlacklist.remove_oldest_entries at hp'
          exact List.mem_of_mem_filter hp'
        · rw [if_neg h2] at hp'
          exact hp'
      have hkeep := List.of_mem_filter hpc
      simp only [decide_eq_true_eq] at hkeep
      omega
    · simp only [List.mem_singleton] at hp2
      rw [hp2]

/-- C6 counterexample: with capacity one, the at-capacity eviction removes
the oldest max_size / 2 = 0 entries, so a second unexpired insertion leaves
two entries in a registry of capacity one. -/
theorem capacity_one_registry_exceeds_capacity :
    (applyRevokes 1 [("a", 10, 0), ("b", 10, 1)]).max_size = 1 ∧
    (applyRevokes 1 [("a", 10, 0), ("b", 10, 1)]).revoked_tokens.length = 2 :=
  ⟨rfl, rfl⟩

/-- C6 witness: three insertions into a registry of capacity two leave at
most two entries. -/
theorem blacklist_bounded_and_expired_purged_first_witness :
    (applyRevokes 2 [("a", 10, 0), ("b", 10, 1), ("c", 10, 2)]).revoked_tokens.length ≤ 2 :=
  (blacklist_bounded_and_expired_purged_first 2 (by decide)).1
    [("a", 10, 0), ("b", 10, 1), ("c", 10, 2)]

/-! ## C7: mint/validate round trip -/

/-- C7: with the signing secret configured, a nonnegative configured Access
lifetime, and the subject not present in the revocation registry, validating
a freshly minted Access token at mint time succeeds and returns the minted
subject. -/
theorem mint_then_validate_roundtrip (env : TokenEnv) (secret : String)
    (bl : TokenBlacklist) (now : Int) (s : String)
    (hsecret : env.jwtSecret = some secret)
    (hdur : 0 ≤ env.accessExpirationMinutes)
    (hrev : TokenBlacklist.is_revoked bl s = false) :
    ∃ tok claims, Token.generate_token env now s .Access = .ok tok ∧
      Token.validate_token env bl now tok = .ok claims ∧ claims.sub = s := by
  refine ⟨.signed ⟨s, env.jwtIssuer.getD "MyHealthGuide-api", now,
      now + TokenType.expirationSecs env .Access⟩
      (macSign secret ⟨s, env.jwtIssuer.getD "MyHealthGuide-api", now,
        now + TokenType.expirationSecs env .Access⟩),
    ⟨s, env.jwtIssuer.getD "MyHealthGuide-api", now,
      now + TokenType.expirationSecs env .Access⟩, ?_, ?_, rfl⟩
  · simp only [Token.generate_token, hsecret]
  · simp only [Token.validate_token, hsecret, jwtDecode]
    rw [if_neg (by simp), if_neg ?hexp, if_neg (by simp)]
    · simp only [hrev, if_neg]
      simp
    case hexp =>
      simp only [TokenType.expirationSecs, not_lt]
      nlinarith

/-- C7 witness: minting and validating an Access token for subject s in the
fixture environment with an empty registry succeeds with subject s. -/
theorem mint_then_validate_roundtrip_witness :
    ∃ tok claims, Token.generate_token envK 0 "s" .Access = .ok tok ∧
      Token.validate_token envK blEmpty 0 tok = .ok claims ∧ claims.sub = "s" :=
  mint_then_validate_roundtrip envK "k" blEmpty 0 "s" rfl (by decide) (by decide)

/-! ## C8: expired-but-unswept sessions are rejected by the callback -/

/-- C8: a federated-login session that is still stored but older than the
configured timeout makes handle_callback stop with SessionNotFound before
any exchange or verification step, for every oracle outcome, leaving the
store unchanged. -/
theorem expired_session_rejected_by_callback (config : OidcConfig)
    (repo : InMemorySessionRepository) (world : CallbackWorld) (now : Int)
    (code state : String) (session : OidcSession)
    (hfind : repo.get_session state = .ok session)
    (htimeout : 0 ≤ config.session_timeout)
    (hlate : session.created_at + config.session_timeout < now) :
    (Oidc.handle_callback config repo world now code state).1 = .error .SessionNotFound ∧
    (Oidc.handle_callback config repo world now code state).2 = repo := by
  have hclock : ¬ now < session.created_at := by omega
  have hexp : config.session_timeout < now - session.created_at := by omega
  constructor <;>
    simp only [Oidc.handle_callback, hfind, if_neg hclock, if_pos hexp]

/-- C8 witness: the fixture session (created at time 0, timeout 600) is
rejected at time 601 while still stored. -/
theorem expired_session_rejected_by_callback_witness :
    repoSt.get_session "st" = .ok sessSt ∧
    (Oidc.handle_callback cfgC repoSt failWorld 601 "cd" "st").1 =
      .error .SessionNotFound := by
  refine ⟨rfl, ?_⟩
  exact (expired_session_rejected_by_callback cfgC repoSt failWorld 601 "cd" "st" sessSt
    rfl (by decide) (by decide)).1

/-! ## C9: federated role extraction -/

/-- Strategy 1 of the role extraction: the direct roles array. -/
def roles_strategy_direct (c : Auth0.Auth0Claims) : List String :=
  c.roles.getD []

/-- Strategy 2: array items of custom claims whose key ends with the
namespace suffix or contains the word roles, as the code tests. -/
def roles_strategy_namespaced (c : Auth0.Auth0Claims) : List String :=
  c.custom_claims.flatMap (fun kv =>
    if strEndsWith kv.1 "/roles" || strContains kv.1 "roles" then
      Auth0.jsonStringItems kv.2
    else [])

/-- Strategy 3: the permissions array. -/
def roles_strategy_permissions (c : Auth0.Auth0Claims) : List String :=
  c.permissions.getD []

/-- Strategy 4: space-delimited scope entries that contain the role marker
or start with the role underscore marker, as the code tests. -/
def roles_strategy_scope (c : Auth0.Auth0Claims) : List String :=
  match c.scope with
  | some scope_str =>
    (strSplitOnSpace scope_str).filter
      (fun scope => strContains scope "role:" || strStartsWith scope "role_")
  | none => []

/-- The four strategies in order, unioned by concatenation. -/
def roles_strategy_union (c : Auth0.Auth0Claims) : List String :=
  roles_strategy_direct c ++ roles_strategy_namespaced c ++
    roles_strategy_permissions c ++ roles_strategy_scope c

/-- Modelled from the spec wording of the claim, for comparison only: roles
from the direct roles array, namespaced custom claims whose key ends in
the /roles suffix, the permissions array, and scope entries with the role
colon or role underscore prefix, with the default user role appended when
absent. -/
def extract_roles_claimed (c : Auth0.Auth0Claims) : List String :=
  let roles :=
    c.roles.getD [] ++
    c.custom_claims.flatMap (fun kv =>
      if strEndsWith kv.1 "/roles" then Auth0.jsonStringItems kv.2 else []) ++
    c.permissions.getD [] ++
    (match c.scope with
     | some scope_str =>
       (strSplitOnSpace scope_str).filter
         (fun scope => strStartsWith scope "role:" || strStartsWith scope "role_")
     | none => [])
  if !(roles.contains "user") then roles ++ ["user"] else roles

/-- Claims whose only role-bearing shapes are a custom claim keyed myroles
(contains roles but does not end with /roles) and a scope entry xrole:z
(contains role colon but is not prefixed by it). -/
def c9ex : Auth0.Auth0Claims :=
  { sub := "u", iss := "i", aud := .null, iat := 0, exp := 0, azp := none,
    scope := some "xrole:z", email := none, email_verified := none, name := none,
    nickname := none, picture := none, updated_at := none, roles := none,
    permissions := none,
    custom_claims := [("myroles", .arr [.str "admin"])] }

/-- C9 counterexample: the code extracts admin from the custom claim keyed
myroles and xrole:z from the scope, although neither matches the claimed
shapes (key ending in /roles, scope prefixed role colon); the extraction
described by the claim yields only the default user role. -/
theorem role_extraction_broader_than_claimed :
    Auth0.extract_roles_from_claims c9ex = ["admin", "xrole:z", "user"] ∧
    extract_roles_claimed c9ex = ["user"] ∧
    "admin" ∈ Auth0.extract_roles_from_claims c9ex ∧
    "admin" ∉ extract_roles_claimed c9ex :=
  ⟨rfl, rfl, by decide, by decide⟩

/-- C9 amended: the extraction equals the ordered union of four strategies,
where the namespaced strategy accepts keys that end with /roles or contain
the substring roles, and the scope strategy accepts entries that contain
role colon anywhere or start with role underscore; the default user role is
appended when not already present, so it is always in the result. -/
theorem role_extraction_is_strategy_union (c : Auth0.Auth0Claims) :
    Auth0.extract_roles_from_claims c =
      (if "user" ∈ roles_strategy_union c then roles_strategy_union c
       else roles_strategy_union c ++ ["user"]) ∧
    "user" ∈ Auth0.extract_roles_from_claims c := by
  have hflip : ∀ R : List String,
      (if !(R.contains "user") then R ++ ["user"] else R) =
      (if "user" ∈ R then R else R ++ ["user"]) := by
    intro R
    by_cases h : "user" ∈ R <;> simp [h]
  have hacc : Auth0.extract_roles_from_claims c =
      (if !((roles_strategy_union c).contains "user") then
        roles_strategy_union c ++ ["user"]
       else roles_strategy_union c) := by
    simp only [Auth0.extract_roles_from_claims, roles_strategy_union,
      roles_strategy_direct, roles_strategy_namespaced, roles_strategy_permissions,
      roles_strategy_scope]
    rcases hr : c.roles with _ | direct <;> rcases hp : c.permissions with _ | perms <;>
      rcases hs : c.scope with _ | sc <;>
        simp only [hr, hp, hs, List.append_assoc, List.append_nil, List.nil_append,
          Option.getD_some, Option.getD_none]
  have hmain : Auth0.extract_roles_from_claims c =
      (if "user" ∈ roles_strategy_union c then roles_strategy_union c
       else roles_strategy_union c ++ ["user"]) := by
    rw [hacc, hflip (roles_strategy_union c)]
  refine ⟨hmain, ?_⟩
  rw [hmain]
  by_cases h : "user" ∈ roles_strategy_union c
  · rw [if_pos h]; exact h
  · rw [if_neg h]; exact List.mem_append_right _ (List.mem_singleton.mpr rfl)

/-! ## C10: authorization middleware decision -/

/-- C10: with an attached identity whose roles intersect the requirement the
next handler's response is returned; with an identity and disjoint role sets
the response is 403 with the required roles in the body; with no identity
attached the response is 500. -/
theorem require_roles_decision (u : UserInfo) (required : List String)
    (next_response : HttpResponse) :
    ((∃ r, r ∈ required ∧ r ∈ u.roles) →
      Middleware.require_roles (some u) required next_response = next_response) ∧
    ((∀ r ∈ required, r ∉ u.roles) →
      Middleware.require_roles (some u) required next_response =
        { status := 403, required_roles := some required }) ∧
    Middleware.require_roles none required next_response =
      { status := 500, required_roles := none } := by
  refine ⟨?_, ?_, rfl⟩
  · rintro ⟨r, hr, hu⟩
    simp only [Middleware.require_roles]
    rw [if_pos]
    exact List.any_eq_true.mpr ⟨r, hr, by simpa using hu⟩
  · intro hdisj
    simp only [Middleware.require_roles]
    rw [if_neg]
    intro hany
    rcases List.any_eq_true.mp hany with ⟨r, hr, hc⟩
    exact hdisj r hr (by simpa using hc)

/-- C10 witness: a user holding only the user role is forbidden on an
admin-only route with the admin role disclosed, and the middleware without
an identity yields 500. -/
theorem require_roles_decision_witness :
    Middleware.require_roles
      (some { user_id := "u", roles := ["user"], email := none, name := none,
              picture := none, auth_source := "jwt" })
      ["admin"] { status := 200 } =
      { status := 403, required_roles := some ["admin"] } ∧
    Middleware.require_roles
      (some { user_id := "u", roles := ["admin", "user"], email := none, name := none,
              picture := none, auth_source := "jwt" })
      ["admin"] { status := 200 } = { status := 200 } := by
  constructor
  · exact (require_roles_decision
      { user_id := "u", roles := ["user"], email := none, name := none,
        picture := none, auth_source := "jwt" } ["admin"] { status := 200 }).2.1
      (by decide)
  · exact (require_roles_decision
      { user_id := "u", roles := ["admin", "user"], email := none, name := none,
        picture := none, auth_source := "jwt" } ["admin"] { status := 200 }).1
      ⟨"admin", by decide, by decide⟩

end MyHealthGuide
